import Mathlib

/-!
# ReliScore daily scoring pipeline — verification of the specification

Shallow embedding of the ReliScore scoring core:

* the operational bucket reconciler
  (`services/api/src/modules/scoring/scoring.service.ts`,
  `ScoringService.applyOperationalBuckets` / `operationalScoreForBucket`);
* the feature engine
  (`services/api/src/modules/scoring/feature-engineering.ts`);
* the model client normalization and request path
  (`services/api/src/modules/scoring/model-client.service.ts`);
* the seed pipeline's retrying scoring call and its heuristic fallback
  (`services/api/prisma/seed.ts`).

JavaScript numbers are modelled as exact rationals where the code only
performs field arithmetic and comparisons (the reconciler), and as reals
where the code uses transcendental functions (sqrt, exp).  `toFixed(6)`
followed by `Number(...)` is modelled as exact rounding to six decimal
places, half away from zero (all rounded quantities here are nonnegative,
so this is floor of `x * 10^6 + 1/2`).
-/

/-- Risk tiers, from the shared `riskBucketSchema` enum `['LOW', 'MED', 'HIGH']`
(`packages/shared/src/schemas.ts`). -/
inductive RiskBucket where
  | LOW
  | MED
  | HIGH
deriving DecidableEq

/-- The reconciliation mode flag returned by `applyOperationalBuckets`. -/
inductive BucketMode where
  | model
  | rank_fallback
deriving DecidableEq

/-- The fields of a raw score that `applyOperationalBuckets` reads or writes
(`T extends { drive_id: string; risk_score: number; risk_bucket: string }`). -/
structure Score where
  drive_id : String
  risk_score : ℚ
  risk_bucket : RiskBucket
deriving DecidableEq

/-- `Number(x.toFixed(6))` for nonnegative `x`: round to six decimal places,
ties away from zero. -/
def round6 (x : ℚ) : ℚ :=
  (⌊x * 1000000 + 1 / 2⌋ : ℚ) / 1000000

/-- `ScoringService.operationalScoreForBucket` (scoring.service.ts lines 184–203):
linear interpolation from a tier-specific max down to a tier-specific min,
parameter `t = bucketPosition / (clampedSize - 1)`, midpoint for a singleton
bucket, result rounded via `toFixed(6)`. -/
def operationalScoreForBucket (bucket : RiskBucket) (bucketPosition bucketSize : ℕ) : ℚ :=
  let clampedSize := max 1 bucketSize
  let t : ℚ := if clampedSize = 1 then 1 / 2 else (bucketPosition : ℚ) / ((clampedSize : ℚ) - 1)
  let mx : ℚ := if bucket = .HIGH then 95 / 100 else if bucket = .MED then 74 / 100 else 39 / 100
  let mn : ℚ := if bucket = .HIGH then 75 / 100 else if bucket = .MED then 40 / 100 else 2 / 100
  round6 (mx - (mx - mn) * t)

/-- The sort comparator of `applyOperationalBuckets`, as a `Bool`-valued
"may come first" relation: descending `risk_score`, ties broken by ascending
`drive_id` (`localeCompare` modelled by the total order on strings). -/
def scoreLE (a b : Score) : Bool :=
  if a.risk_score ≠ b.risk_score then decide (b.risk_score < a.risk_score)
  else decide (a.drive_id ≤ b.drive_id)

/-- `highCount` of `applyOperationalBuckets`:
`total >= 20 ? Math.ceil(total * 0.05) : Math.min(1, total)`. -/
def highCountFor (total : ℕ) : ℕ :=
  if 20 ≤ total then ⌈(total : ℚ) * (5 / 100)⌉₊ else min 1 total

/-- `medCount` of `applyOperationalBuckets`:
`total >= 10 ? Math.ceil(total * 0.15) : Math.min(1, Math.max(0, total - highCount))`
(natural subtraction already floors at 0). -/
def medCountFor (total highCount : ℕ) : ℕ :=
  if 10 ≤ total then ⌈(total : ℚ) * (15 / 100)⌉₊ else min 1 (total - highCount)

/-- The body of the `ordered.map((item, index) => ...)` callback in
`applyOperationalBuckets` (scoring.service.ts lines 146–165).  Note that the
`LOW` branch keeps the initializers `bucketPosition = 0` and
`bucketSize = Math.max(1, total - highCount - medCount)`. -/
def assignScore (total highCount medCount : ℕ) (index : ℕ) (item : Score) : Score :=
  let riskBucket : RiskBucket :=
    if index < highCount then .HIGH
    else if index < highCount + medCount then .MED
    else .LOW
  let bucketPosition : ℕ :=
    if index < highCount then index
    else if index < highCount + medCount then index - highCount
    else 0
  let bucketSize : ℕ :=
    if index < highCount then highCount
    else if index < highCount + medCount then medCount
    else max 1 (total - highCount - medCount)
  { item with
      risk_score := operationalScoreForBucket riskBucket bucketPosition bucketSize
      risk_bucket := riskBucket }

/-- `ScoringService.applyOperationalBuckets` (scoring.service.ts lines 122–168). -/
def applyOperationalBuckets (scores : List Score) : List Score × BucketMode :=
  if scores.length = 0 then ([], .model)
  else if scores.any (fun item => item.risk_bucket == RiskBucket.MED || item.risk_bucket == RiskBucket.HIGH)
    then (scores, .model)
  else
    let ordered := scores.mergeSort scoreLE
    let total := ordered.length
    let highCount := highCountFor total
    let medCount := medCountFor total highCount
    (ordered.mapIdx (fun index item => assignScore total highCount medCount index item),
      .rank_fallback)

/-- Claim C3: if at least one item of the input batch has raw tier MED or HIGH,
the reconciler returns the input batch unchanged (the very same list, hence
identical items, order, probabilities and tiers) together with mode `model`. -/
theorem reconciler_passthrough_c3 (scores : List Score) (x : Score)
    (hx : x ∈ scores) (hmh : x.risk_bucket = .MED ∨ x.risk_bucket = .HIGH) :
    applyOperationalBuckets scores = (scores, .model) := by
  have hne : scores.length ≠ 0 := by
    intro h
    rw [List.length_eq_zero] at h
    subst h
    simp at hx
  have hany : scores.any
      (fun item => item.risk_bucket == RiskBucket.MED || item.risk_bucket == RiskBucket.HIGH) = true := by
    rw [List.any_eq_true]
    refine ⟨x, hx, ?_⟩
    rcases hmh with h | h <;> simp [h]
  unfold applyOperationalBuckets
  rw [if_neg hne, if_pos hany]

/-- Witness for C3 at a concrete two-item batch containing a MED item. -/
theorem reconciler_passthrough_c3_witness :
    applyOperationalBuckets
        [⟨"d1", 2 / 10, .LOW⟩, ⟨"d2", 5 / 10, .MED⟩] =
      ([⟨"d1", 2 / 10, .LOW⟩, ⟨"d2", 5 / 10, .MED⟩], .model) :=
  reconciler_passthrough_c3 _ ⟨"d2", 5 / 10, .MED⟩ (by simp) (Or.inl rfl)

/-- Claim C10: the reconciler maps an empty batch to an empty batch with mode
`model`, and the rank-based fallback branch is only ever taken for a non-empty
batch. -/
theorem reconciler_empty_c10 :
    applyOperationalBuckets [] = ([], BucketMode.model) ∧
      ∀ scores : List Score,
        (applyOperationalBuckets scores).2 = .rank_fallback → scores ≠ [] := by
  constructor
  · rfl
  · intro scores hmode h
    subst h
    simp [applyOperationalBuckets] at hmode

/-- Witness for C10: the fallback branch is reached at a concrete non-empty
all-LOW batch, and the theorem then certifies that batch non-empty. -/
theorem reconciler_empty_c10_witness :
    ([⟨"d1", 1 / 10, .LOW⟩] : List Score) ≠ [] :=
  reconciler_empty_c10.2 [⟨"d1", 1 / 10, .LOW⟩] (by decide)

/-! ## Helper lemmas about the reconciler arithmetic -/

theorem round6_mono {x y : ℚ} (h : x ≤ y) : round6 x ≤ round6 y := by
  unfold round6
  have hfl : ⌊x * 1000000 + 1 / 2⌋ ≤ ⌊y * 1000000 + 1 / 2⌋ := by
    apply Int.floor_le_floor
    linarith
  have hcast : (⌊x * 1000000 + 1 / 2⌋ : ℚ) ≤ (⌊y * 1000000 + 1 / 2⌋ : ℚ) := by
    exact_mod_cast hfl
  have hpos : (0 : ℚ) ≤ 1000000 := by norm_num
  exact div_le_div_of_nonneg_right hcast hpos

/-- Tier maximum of the interpolation range (proof abbreviation). -/
def bMax : RiskBucket → ℚ
  | .HIGH => 95 / 100
  | .MED => 74 / 100
  | .LOW => 39 / 100

/-- Tier minimum of the interpolation range (proof abbreviation). -/
def bMin : RiskBucket → ℚ
  | .HIGH => 75 / 100
  | .MED => 40 / 100
  | .LOW => 2 / 100

theorem round6_bMax (b : RiskBucket) : round6 (bMax b) = bMax b := by
  cases b <;> norm_num [round6, bMax]

theorem round6_bMin (b : RiskBucket) : round6 (bMin b) = bMin b := by
  cases b <;> norm_num [round6, bMin]

theorem bMin_le_bMax (b : RiskBucket) : bMin b ≤ bMax b := by
  cases b <;> norm_num [bMin, bMax]

theorem opScore_eq_round6 (b : RiskBucket) (pos size : ℕ) :
    operationalScoreForBucket b pos size =
      round6 (bMax b - (bMax b - bMin b) *
        (if max 1 size = 1 then (1 / 2 : ℚ) else (pos : ℚ) / ((max 1 size : ℕ) - 1 : ℚ))) := by
  cases b <;> simp [operationalScoreForBucket, bMax, bMin]

theorem tval_nonneg (pos size : ℕ) :
    (0 : ℚ) ≤ (if max 1 size = 1 then (1 / 2 : ℚ) else (pos : ℚ) / ((max 1 size : ℕ) - 1 : ℚ)) := by
  split
  · norm_num
  · next hne =>
    have h2 : 2 ≤ max 1 size := by omega
    apply div_nonneg (by positivity)
    have : (2 : ℚ) ≤ ((max 1 size : ℕ) : ℚ) := by exact_mod_cast h2
    linarith

theorem tval_le_one (pos size : ℕ) (h : pos < size) :
    (if max 1 size = 1 then (1 / 2 : ℚ) else (pos : ℚ) / ((max 1 size : ℕ) - 1 : ℚ)) ≤ 1 := by
  have hsz : max 1 size = size := by omega
  rw [hsz]
  split
  · norm_num
  · next hne =>
    have h2 : 2 ≤ size := by omega
    have hden : (0 : ℚ) < (size : ℚ) - 1 := by
      have : (2 : ℚ) ≤ (size : ℚ) := by exact_mod_cast h2
      linarith
    rw [div_le_one hden]
    have hps : pos ≤ size - 1 := by omega
    have : (pos : ℚ) ≤ ((size - 1 : ℕ) : ℚ) := by exact_mod_cast hps
    rwa [Nat.cast_sub (by omega), Nat.cast_one] at this

theorem opScore_between (b : RiskBucket) (pos size : ℕ) (h : pos < size) :
    bMin b ≤ operationalScoreForBucket b pos size ∧
      operationalScoreForBucket b pos size ≤ bMax b := by
  rw [opScore_eq_round6]
  set t := (if max 1 size = 1 then (1 / 2 : ℚ) else (pos : ℚ) / ((max 1 size : ℕ) - 1 : ℚ)) with ht
  have ht0 : (0 : ℚ) ≤ t := tval_nonneg pos size
  have ht1 : t ≤ 1 := tval_le_one pos size h
  have hmm : bMin b ≤ bMax b := bMin_le_bMax b
  constructor
  · calc bMin b = round6 (bMin b) := (round6_bMin b).symm
      _ ≤ round6 (bMax b - (bMax b - bMin b) * t) := by
          apply round6_mono
          nlinarith
  · calc round6 (bMax b - (bMax b - bMin b) * t) ≤ round6 (bMax b) := by
          apply round6_mono
          nlinarith
      _ = bMax b := round6_bMax b

theorem opScore_LOW_pos0 (size : ℕ) :
    operationalScoreForBucket .LOW 0 size =
      if max 1 size = 1 then (41 / 200 : ℚ) else 39 / 100 := by
  simp only [operationalScoreForBucket]
  by_cases hc : max 1 size = 1 <;> simp [hc] <;> norm_num [round6]

theorem opScore_LOW_pos0_le (size : ℕ) :
    operationalScoreForBucket .LOW 0 size ≤ 39 / 100 := by
  rw [opScore_LOW_pos0]
  split <;> norm_num

theorem opScore_pos_antitone (b : RiskBucket) (p q size : ℕ) (hpq : p ≤ q) :
    operationalScoreForBucket b q size ≤ operationalScoreForBucket b p size := by
  rw [opScore_eq_round6, opScore_eq_round6]
  have hmm : bMin b ≤ bMax b := bMin_le_bMax b
  apply round6_mono
  split
  · linarith
  · next hne =>
    have h2 : 2 ≤ max 1 size := by omega
    have hden : (0 : ℚ) < ((max 1 size : ℕ) : ℚ) - 1 := by
      have : (2 : ℚ) ≤ ((max 1 size : ℕ) : ℚ) := by exact_mod_cast h2
      linarith
    have hpq2 : (p : ℚ) / ((max 1 size : ℕ) - 1 : ℚ) ≤ (q : ℚ) / ((max 1 size : ℕ) - 1 : ℚ) := by
      apply div_le_div_of_nonneg_right ?_ hden.le
      exact_mod_cast hpq
    nlinarith

theorem scoreLE_iff (a b : Score) :
    scoreLE a b = true ↔
      (b.risk_score < a.risk_score ∨
        (a.risk_score = b.risk_score ∧ a.drive_id ≤ b.drive_id)) := by
  unfold scoreLE
  split
  · next h =>
    simp only [decide_eq_true_eq]
    constructor
    · intro hlt
      exact Or.inl hlt
    · rintro (hlt | ⟨heq, hid⟩)
      · exact hlt
      · exact absurd heq h
  · next h =>
    push_neg at h
    simp [decide_eq_true_eq, h]

theorem scoreLE_refl (a : Score) : scoreLE a a = true := by
  rw [scoreLE_iff]
  exact Or.inr ⟨rfl, le_refl _⟩

theorem scoreLE_trans (a b c : Score) (hab : scoreLE a b = true) (hbc : scoreLE b c = true) :
    scoreLE a c = true := by
  rw [scoreLE_iff] at hab hbc ⊢
  rcases hab with h1 | ⟨h1, h1s⟩ <;> rcases hbc with h2 | ⟨h2, h2s⟩
  · exact Or.inl (lt_trans h2 h1)
  · exact Or.inl (h2 ▸ h1)
  · exact Or.inl (h1 ▸ h2)
  · exact Or.inr ⟨h1.trans h2, le_trans h1s h2s⟩

theorem scoreLE_total (a b : Score) : (scoreLE a b || scoreLE b a) = true := by
  rw [Bool.or_eq_true, scoreLE_iff, scoreLE_iff]
  rcases lt_trichotomy a.risk_score b.risk_score with h | h | h
  · exact Or.inr (Or.inl h)
  · rcases le_total a.drive_id b.drive_id with hs | hs
    · exact Or.inl (Or.inr ⟨h, hs⟩)
    · exact Or.inr (Or.inr ⟨h.symm, hs⟩)
  · exact Or.inl (Or.inl h)

/-- Unfolding of `applyOperationalBuckets` on a non-empty all-LOW batch:
it takes the rank-fallback branch. -/
theorem applyOB_fallback (s : List Score) (hne : s ≠ [])
    (hlow : ∀ x ∈ s, x.risk_bucket = .LOW) :
    applyOperationalBuckets s =
      ((s.mergeSort scoreLE).mapIdx
          (fun index item =>
            assignScore s.length (highCountFor s.length)
              (medCountFor s.length (highCountFor s.length)) index item),
        .rank_fallback) := by
  have hlen : ¬ s.length = 0 := by
    simpa [List.length_eq_zero] using hne
  have hany : (s.any fun item =>
      item.risk_bucket == RiskBucket.MED || item.risk_bucket == RiskBucket.HIGH) = false := by
    rw [List.any_eq_false]
    intro x hx
    simp [hlow x hx]
  have hany2 : ¬ ((s.any fun item =>
      item.risk_bucket == RiskBucket.MED || item.risk_bucket == RiskBucket.HIGH) = true) := by
    rw [hany]
    simp
  unfold applyOperationalBuckets
  rw [if_neg hlen, if_neg hany2]
  simp only [(List.mergeSort_perm s scoreLE).length_eq]

theorem assignScore_bucket (total hc mc index : ℕ) (item : Score) :
    (assignScore total hc mc index item).risk_bucket =
      (if index < hc then RiskBucket.HIGH
        else if index < hc + mc then .MED else .LOW) := rfl

theorem assignScore_score (total hc mc index : ℕ) (item : Score) :
    (assignScore total hc mc index item).risk_score =
      operationalScoreForBucket
        (if index < hc then .HIGH else if index < hc + mc then .MED else .LOW)
        (if index < hc then index else if index < hc + mc then index - hc else 0)
        (if index < hc then hc else if index < hc + mc then mc
          else max 1 (total - hc - mc)) := rfl

theorem assignScore_id (total hc mc index : ℕ) (item : Score) :
    (assignScore total hc mc index item).drive_id = item.drive_id := rfl

/-- The reconciled score is antitone in the rank index, whatever the items. -/
theorem assignScore_score_antitone (total hc mc : ℕ) (i j : ℕ) (hij : i ≤ j) (a b : Score) :
    (assignScore total hc mc j b).risk_score ≤ (assignScore total hc mc i a).risk_score := by
  rw [assignScore_score, assignScore_score]
  by_cases hi : i < hc
  · by_cases hj : j < hc
    · simp only [hi, hj, if_true]
      exact opScore_pos_antitone _ _ _ _ hij
    · have hhi := (opScore_between .HIGH i hc hi).1
      simp only [bMin] at hhi
      by_cases hj2 : j < hc + mc
      · simp only [hi, hj, hj2, if_true, if_false]
        have hmj := (opScore_between .MED (j - hc) mc (by omega)).2
        simp only [bMax] at hmj
        linarith
      · simp only [hi, hj, hj2, if_true, if_false]
        have hlj := opScore_LOW_pos0_le (max 1 (total - hc - mc))
        linarith
  · have hj : ¬ j < hc := by omega
    by_cases hi2 : i < hc + mc
    · by_cases hj2 : j < hc + mc
      · simp only [hi, hj, hi2, hj2, if_true, if_false]
        exact opScore_pos_antitone _ _ _ _ (by omega)
      · simp only [hi, hj, hi2, hj2, if_true, if_false]
        have hmi := (opScore_between .MED (i - hc) mc (by omega)).1
        simp only [bMin] at hmi
        have hlj := opScore_LOW_pos0_le (max 1 (total - hc - mc))
        linarith
    · have hj2 : ¬ j < hc + mc := by omega
      simp only [hi, hj, hi2, hj2, if_true, if_false]
      exact le_refl _

theorem countP_range_lt (n m : ℕ) :
    (List.range n).countP (fun i => decide (i < m)) = min m n := by
  induction n with
  | zero => simp
  | succ k ih =>
    rw [List.range_succ, List.countP_append, ih]
    simp only [List.countP_cons, List.countP_nil, decide_eq_true_eq]
    split <;> omega

theorem countP_range_band (n a b : ℕ) (hab : a ≤ b) :
    (List.range n).countP (fun i => decide (a ≤ i) && decide (i < b)) =
      min b n - min a n := by
  induction n with
  | zero => simp
  | succ k ih =>
    rw [List.range_succ, List.countP_append, ih]
    simp only [List.countP_cons, List.countP_nil, Bool.and_eq_true, decide_eq_true_eq]
    split <;> rename_i h <;> omega

theorem countP_range_ge (n a : ℕ) :
    (List.range n).countP (fun i => decide (a ≤ i)) = n - min a n := by
  induction n with
  | zero => simp
  | succ k ih =>
    rw [List.range_succ, List.countP_append, ih]
    simp only [List.countP_cons, List.countP_nil, decide_eq_true_eq]
    split <;> omega

theorem highCountFor_le (n : ℕ) : highCountFor n ≤ n := by
  unfold highCountFor
  split
  · rw [Nat.ceil_le]
    have h0 : (0 : ℚ) ≤ (n : ℚ) := Nat.cast_nonneg n
    nlinarith
  · omega

theorem highCountFor_pos (n : ℕ) (h : 1 ≤ n) : 1 ≤ highCountFor n := by
  unfold highCountFor
  split
  · next h20 =>
    have hn : (20 : ℚ) ≤ (n : ℚ) := by exact_mod_cast h20
    have hpos : (0 : ℚ) < (n : ℚ) * (5 / 100) := by nlinarith
    exact Nat.ceil_pos.mpr hpos
  · omega

theorem hc_add_mc_le (n : ℕ) (h : 1 ≤ n) :
    highCountFor n + medCountFor n (highCountFor n) ≤ n := by
  unfold highCountFor medCountFor
  by_cases h20 : 20 ≤ n
  · have h10 : 10 ≤ n := by omega
    simp only [h20, h10, if_true]
    have hn : (20 : ℚ) ≤ (n : ℚ) := by exact_mod_cast h20
    have c1 : (⌈(n : ℚ) * (5 / 100)⌉₊ : ℚ) < (n : ℚ) * (5 / 100) + 1 :=
      Nat.ceil_lt_add_one (by positivity)
    have c2 : (⌈(n : ℚ) * (15 / 100)⌉₊ : ℚ) < (n : ℚ) * (15 / 100) + 1 :=
      Nat.ceil_lt_add_one (by positivity)
    have hsum : ((⌈(n : ℚ) * (5 / 100)⌉₊ + ⌈(n : ℚ) * (15 / 100)⌉₊ : ℕ) : ℚ) < (n : ℚ) := by
      push_cast
      nlinarith
    have hlt : ⌈(n : ℚ) * (5 / 100)⌉₊ + ⌈(n : ℚ) * (15 / 100)⌉₊ < n := by exact_mod_cast hsum
    omega
  · by_cases h10 : 10 ≤ n
    · simp only [h20, h10, if_true, if_false]
      have hmin : min 1 n = 1 := by omega
      rw [hmin]
      have hn : (10 : ℚ) ≤ (n : ℚ) := by exact_mod_cast h10
      have c2 : (⌈(n : ℚ) * (15 / 100)⌉₊ : ℚ) < (n : ℚ) * (15 / 100) + 1 :=
        Nat.ceil_lt_add_one (by positivity)
      have hsum : ((1 + ⌈(n : ℚ) * (15 / 100)⌉₊ : ℕ) : ℚ) < (n : ℚ) := by
        push_cast
        nlinarith
      have hlt : 1 + ⌈(n : ℚ) * (15 / 100)⌉₊ < n := by exact_mod_cast hsum
      omega
    · simp only [h20, h10, if_false]
      omega

/-- The tier pattern of the rank-fallback output: tiers depend on rank only. -/
theorem applyOB_bucket_map (s : List Score) (hne : s ≠ [])
    (hlow : ∀ x ∈ s, x.risk_bucket = .LOW) :
    (applyOperationalBuckets s).1.map (fun x => x.risk_bucket) =
      (List.range s.length).map
        (fun i =>
          if i < highCountFor s.length then RiskBucket.HIGH
          else if i < highCountFor s.length + medCountFor s.length (highCountFor s.length)
            then .MED else .LOW) := by
  rw [applyOB_fallback s hne hlow]
  apply List.ext_getElem
  · simp [(List.mergeSort_perm s scoreLE).length_eq]
  · intro i h1 h2
    simp only [List.getElem_map, List.getElem_mapIdx, List.getElem_range, assignScore_bucket]

/-- Claim C4: on a non-empty all-LOW batch of size n, rank-based reconciliation
assigns exactly `highCountFor n` items HIGH (`ceil(0.05*n)` when `n ≥ 20`, else
`min 1 n`), exactly `medCountFor n (highCountFor n)` items MED (`ceil(0.15*n)`
when `n ≥ 10`, else `min 1 (n - highCount)`), all remaining items LOW, with
mode `rank_fallback`; for n = 25 that is exactly 2 HIGH, 4 MED, 19 LOW. -/
theorem reconciler_counts_c4 (s : List Score) (hne : s ≠ [])
    (hlow : ∀ x ∈ s, x.risk_bucket = .LOW) :
    (applyOperationalBuckets s).2 = .rank_fallback ∧
    (applyOperationalBuckets s).1.countP (fun x => x.risk_bucket == RiskBucket.HIGH) =
      highCountFor s.length ∧
    (applyOperationalBuckets s).1.countP (fun x => x.risk_bucket == RiskBucket.MED) =
      medCountFor s.length (highCountFor s.length) ∧
    (applyOperationalBuckets s).1.countP (fun x => x.risk_bucket == RiskBucket.LOW) =
      s.length - highCountFor s.length - medCountFor s.length (highCountFor s.length) ∧
    (s.length = 25 →
      (applyOperationalBuckets s).1.countP (fun x => x.risk_bucket == RiskBucket.HIGH) = 2 ∧
      (applyOperationalBuckets s).1.countP (fun x => x.risk_bucket == RiskBucket.MED) = 4 ∧
      (applyOperationalBuckets s).1.countP (fun x => x.risk_bucket == RiskBucket.LOW) = 19) := by
  have hn1 : 1 ≤ s.length := List.length_pos.mpr hne
  have hhle : highCountFor s.length ≤ s.length := highCountFor_le s.length
  have hhmle : highCountFor s.length + medCountFor s.length (highCountFor s.length) ≤ s.length :=
    hc_add_mc_le s.length hn1
  have hmode : (applyOperationalBuckets s).2 = .rank_fallback := by
    rw [applyOB_fallback s hne hlow]
  have hmap := applyOB_bucket_map s hne hlow
  have hcount : ∀ p : RiskBucket → Bool,
      (applyOperationalBuckets s).1.countP (fun x => p x.risk_bucket) =
        (List.range s.length).countP
          (fun i => p (if i < highCountFor s.length then RiskBucket.HIGH
            else if i < highCountFor s.length + medCountFor s.length (highCountFor s.length)
              then .MED else .LOW)) := by
    intro p
    have h1 : (applyOperationalBuckets s).1.countP (fun x => p x.risk_bucket) =
        ((applyOperationalBuckets s).1.map (fun x => x.risk_bucket)).countP p := by
      rw [List.countP_map]
      rfl
    rw [h1, hmap, List.countP_map]
    rfl
  have hHIGH : (applyOperationalBuckets s).1.countP
      (fun x => x.risk_bucket == RiskBucket.HIGH) = highCountFor s.length := by
    rw [hcount (fun bkt => bkt == RiskBucket.HIGH)]
    have hpred : (fun i => ((if i < highCountFor s.length then RiskBucket.HIGH
        else if i < highCountFor s.length + medCountFor s.length (highCountFor s.length)
          then .MED else .LOW) == RiskBucket.HIGH)) =
        fun i => decide (i < highCountFor s.length) := by
      funext i
      by_cases h1 : i < highCountFor s.length
      · simp [h1]
      · by_cases h2 : i < highCountFor s.length + medCountFor s.length (highCountFor s.length) <;>
          simp [h1, h2]
    rw [hpred, countP_range_lt]
    omega
  have hMED : (applyOperationalBuckets s).1.countP
      (fun x => x.risk_bucket == RiskBucket.MED) =
      medCountFor s.length (highCountFor s.length) := by
    rw [hcount (fun bkt => bkt == RiskBucket.MED)]
    have hpred : (fun i => ((if i < highCountFor s.length then RiskBucket.HIGH
        else if i < highCountFor s.length + medCountFor s.length (highCountFor s.length)
          then .MED else .LOW) == RiskBucket.MED)) =
        fun i => (decide (highCountFor s.length ≤ i) &&
          decide (i < highCountFor s.length + medCountFor s.length (highCountFor s.length))) := by
      funext i
      by_cases h1 : i < highCountFor s.length
      · have hx : ¬ highCountFor s.length ≤ i := by omega
        simp [h1, hx]
      · have hx : highCountFor s.length ≤ i := by omega
        by_cases h2 : i < highCountFor s.length + medCountFor s.length (highCountFor s.length) <;>
          simp [h1, h2, hx]
    rw [hpred, countP_range_band _ _ _ (by omega)]
    omega
  have hLOW : (applyOperationalBuckets s).1.countP
      (fun x => x.risk_bucket == RiskBucket.LOW) =
      s.length - highCountFor s.length - medCountFor s.length (highCountFor s.length) := by
    rw [hcount (fun bkt => bkt == RiskBucket.LOW)]
    have hpred : (fun i => ((if i < highCountFor s.length then RiskBucket.HIGH
        else if i < highCountFor s.length + medCountFor s.length (highCountFor s.length)
          then .MED else .LOW) == RiskBucket.LOW)) =
        fun i => decide (highCountFor s.length +
          medCountFor s.length (highCountFor s.length) ≤ i) := by
      funext i
      by_cases h1 : i < highCountFor s.length
      · have hx : ¬ (highCountFor s.length +
            medCountFor s.length (highCountFor s.length) ≤ i) := by omega
        simp [h1, hx]
      · by_cases h2 : i < highCountFor s.length + medCountFor s.length (highCountFor s.length)
        · have hx : ¬ (highCountFor s.length +
              medCountFor s.length (highCountFor s.length) ≤ i) := by omega
          simp [h1, h2, hx]
        · have hx : highCountFor s.length +
              medCountFor s.length (highCountFor s.length) ≤ i := by omega
          simp [h1, h2, hx]
    rw [hpred, countP_range_ge]
    omega
  refine ⟨hmode, hHIGH, hMED, hLOW, ?_⟩
  intro h25
  have hhc25 : highCountFor 25 = 2 := by
    unfold highCountFor
    norm_num
    rw [Nat.ceil_eq_iff (by norm_num)]
    norm_num
  have hmc25 : medCountFor 25 (highCountFor 25) = 4 := by
    unfold medCountFor
    norm_num
    rw [Nat.ceil_eq_iff (by norm_num)]
    norm_num
  refine ⟨?_, ?_, ?_⟩
  · rw [hHIGH, h25, hhc25]
  · rw [hMED, h25, hmc25]
  · rw [hLOW, h25, hhc25]
    rw [hhc25] at hmc25
    rw [hmc25]

/-- Witness for C4 at a concrete one-item all-LOW batch. -/
theorem reconciler_counts_c4_witness :
    (applyOperationalBuckets [⟨"d1", 1 / 10, .LOW⟩]).2 = .rank_fallback ∧
    (applyOperationalBuckets [⟨"d1", 1 / 10, .LOW⟩]).1.countP
      (fun x => x.risk_bucket == RiskBucket.HIGH) = 1 := by
  obtain ⟨hm, hh, -, -, -⟩ := reconciler_counts_c4 [⟨"d1", 1 / 10, .LOW⟩]
    (by simp) (by intro x hx; rw [List.mem_singleton] at hx; subst hx; rfl)
  refine ⟨hm, ?_⟩
  rw [hh]
  norm_num [highCountFor]

/-- Tier-probability monotonicity: no LOW-tier item has a strictly higher
probability than any HIGH-tier item. -/
def TierMono (l : List Score) : Prop :=
  ∀ x ∈ l, ∀ y ∈ l, x.risk_bucket = .LOW → y.risk_bucket = .HIGH →
    x.risk_score ≤ y.risk_score

/-- Claim C2 (amended): the reconciler output satisfies tier-probability
monotonicity whenever rank-based reconciliation was applied, and in
pass-through mode whenever the input batch already satisfied it (the output
is then the unchanged input). -/
theorem reconciler_monotone_c2 (s : List Score) :
    ((applyOperationalBuckets s).2 = .rank_fallback →
      TierMono (applyOperationalBuckets s).1) ∧
    (TierMono s → TierMono (applyOperationalBuckets s).1) := by
  by_cases hlen : s.length = 0
  · rw [List.length_eq_zero] at hlen
    subst hlen
    constructor
    · intro h
      simp [applyOperationalBuckets] at h
    · intro _ x hx
      rw [show applyOperationalBuckets ([] : List Score) = ([], .model) from rfl] at hx
      simp at hx
  · by_cases hany : (s.any fun item =>
        item.risk_bucket == RiskBucket.MED || item.risk_bucket == RiskBucket.HIGH) = true
    · have heq : applyOperationalBuckets s = (s, .model) := by
        unfold applyOperationalBuckets
        rw [if_neg hlen, if_pos hany]
      rw [heq]
      constructor
      · intro h
        simp at h
      · intro hmono
        exact hmono
    · have hlow : ∀ x ∈ s, x.risk_bucket = .LOW := by
        intro x hx
        by_contra hne2
        apply hany
        rw [List.any_eq_true]
        refine ⟨x, hx, ?_⟩
        cases hcase : x.risk_bucket
        · exact absurd hcase hne2
        · simp
        · simp
      have hne : s ≠ [] := by
        intro h
        subst h
        simp at hlen
      have hn1 : 1 ≤ s.length := List.length_pos.mpr hne
      have key : TierMono (applyOperationalBuckets s).1 := by
        rw [applyOB_fallback s hne hlow]
        intro x hx y hy hxl hyh
        rw [List.mem_iff_getElem] at hx hy
        obtain ⟨i, hi, hxeq⟩ := hx
        obtain ⟨j, hj, hyeq⟩ := hy
        rw [List.getElem_mapIdx] at hxeq hyeq
        subst hxeq
        subst hyeq
        rw [assignScore_bucket] at hxl hyh
        rw [assignScore_score, assignScore_score]
        have hiLOW : ¬ i < highCountFor s.length ∧
            ¬ i < highCountFor s.length + medCountFor s.length (highCountFor s.length) := by
          by_cases h1 : i < highCountFor s.length
          · simp [h1] at hxl
          · by_cases h2 : i < highCountFor s.length +
                medCountFor s.length (highCountFor s.length)
            · simp [h1, h2] at hxl
            · exact ⟨h1, h2⟩
        have hjHIGH : j < highCountFor s.length := by
          by_cases h1 : j < highCountFor s.length
          · exact h1
          · by_cases h2 : j < highCountFor s.length +
                medCountFor s.length (highCountFor s.length) <;> simp [h1, h2] at hyh
        simp only [hiLOW.1, hiLOW.2, hjHIGH, if_true, if_false]
        have hL := opScore_LOW_pos0_le
          (max 1 (s.length - highCountFor s.length - medCountFor s.length (highCountFor s.length)))
        have hH := (opScore_between .HIGH j (highCountFor s.length) hjHIGH).1
        simp only [bMin] at hH
        linarith
      exact ⟨fun _ => key, fun _ => key⟩

/-- Witness for C2: the amended theorem applied at a concrete all-LOW batch
that takes the rank-fallback branch. -/
theorem reconciler_monotone_c2_witness :
    TierMono (applyOperationalBuckets [⟨"d1", 1 / 10, .LOW⟩]).1 :=
  (reconciler_monotone_c2 [⟨"d1", 1 / 10, .LOW⟩]).2
    (by
      intro x hx y hy hxl hyh
      rw [List.mem_singleton] at hx hy
      subst hx
      subst hy
      simp at hyh)

/-- Counterexample for C2 as stated: a pass-through batch in which a LOW item
carries a strictly higher probability than a HIGH item is returned unchanged,
so the reconciled batch violates tier-probability monotonicity. -/
theorem reconciler_monotone_c2_counterexample :
    ¬ TierMono (applyOperationalBuckets
      [⟨"a", 9 / 10, .LOW⟩, ⟨"b", 1 / 10, .HIGH⟩]).1 := by
  have heq : applyOperationalBuckets [⟨"a", 9 / 10, .LOW⟩, ⟨"b", 1 / 10, .HIGH⟩] =
      ([⟨"a", 9 / 10, .LOW⟩, ⟨"b", 1 / 10, .HIGH⟩], .model) := by
    unfold applyOperationalBuckets
    norm_num
  rw [heq]
  intro h
  have := h ⟨"a", 9 / 10, .LOW⟩ (by simp) ⟨"b", 1 / 10, .HIGH⟩ (by simp) rfl rfl
  norm_num at this

/-- Claim C6: for a non-empty all-LOW batch, the head of the sorted order
(the item with the highest raw probability, ties broken by ascending drive
identifier — exactly the items `scoreLE`-below it) does not receive tier LOW,
and the reconciled probabilities are non-increasing in rank order. -/
theorem reconciler_rank_order_c6 (s : List Score) (hne : s ≠ [])
    (hlow : ∀ x ∈ s, x.risk_bucket = .LOW) :
    (∀ hd, (s.mergeSort scoreLE).head? = some hd →
      (∀ y ∈ s, scoreLE hd y = true) ∧
      ∀ o, ((applyOperationalBuckets s).1).head? = some o →
        o.drive_id = hd.drive_id ∧ o.risk_bucket ≠ .LOW) ∧
    (applyOperationalBuckets s).1 ≠ [] ∧
    (applyOperationalBuckets s).1.Pairwise (fun a b => b.risk_score ≤ a.risk_score) := by
  have hn1 : 1 ≤ s.length := List.length_pos.mpr hne
  have hsortlen : (s.mergeSort scoreLE).length = s.length :=
    (List.mergeSort_perm s scoreLE).length_eq
  have hsorted : List.Pairwise (fun a b => scoreLE a b = true) (s.mergeSort scoreLE) :=
    List.sorted_mergeSort scoreLE_trans scoreLE_total s
  obtain ⟨hd0, tl0, hcons⟩ : ∃ hd tl, s.mergeSort scoreLE = hd :: tl := by
    cases hs : s.mergeSort scoreLE with
    | nil =>
      rw [hs] at hsortlen
      simp at hsortlen
      omega
    | cons a l => exact ⟨a, l, rfl⟩
  have happly := applyOB_fallback s hne hlow
  refine ⟨?_, ?_, ?_⟩
  · intro hd hhd
    rw [hcons] at hhd
    simp only [List.head?_cons, Option.some.injEq] at hhd
    subst hhd
    constructor
    · intro y hy
      have hymem : y ∈ s.mergeSort scoreLE := ((List.mergeSort_perm s scoreLE).mem_iff).mpr hy
      rw [hcons] at hymem
      rcases List.mem_cons.mp hymem with h | h
      · subst h
        exact scoreLE_refl y
      · rw [hcons] at hsorted
        exact (List.pairwise_cons.mp hsorted).1 y h
    · intro o ho
      rw [happly] at ho
      rw [hcons, List.mapIdx_cons] at ho
      simp only [List.head?_cons, Option.some.injEq] at ho
      subst ho
      refine ⟨assignScore_id _ _ _ _ _, ?_⟩
      rw [assignScore_bucket]
      have hhc : 0 < highCountFor s.length := highCountFor_pos s.length hn1
      simp [hhc]
  · rw [happly]
    intro hnil
    have := congrArg List.length hnil
    simp only [List.length_mapIdx, List.length_nil] at this
    omega
  · rw [happly]
    rw [List.pairwise_iff_getElem]
    intro i j hi hj hij
    rw [List.getElem_mapIdx, List.getElem_mapIdx]
    exact assignScore_score_antitone _ _ _ i j (le_of_lt hij) _ _

/-- Witness for C6 at a concrete two-item all-LOW batch. -/
theorem reconciler_rank_order_c6_witness :
    (applyOperationalBuckets [⟨"d1", 3 / 10, .LOW⟩, ⟨"d2", 1 / 10, .LOW⟩]).1 ≠ [] ∧
    (applyOperationalBuckets [⟨"d1", 3 / 10, .LOW⟩, ⟨"d2", 1 / 10, .LOW⟩]).1.Pairwise
      (fun a b => b.risk_score ≤ a.risk_score) :=
  (reconciler_rank_order_c6 [⟨"d1", 3 / 10, .LOW⟩, ⟨"d2", 1 / 10, .LOW⟩]
    (by simp)
    (by
      intro x hx
      rcases List.mem_cons.mp hx with h | h
      · subst h
        rfl
      · rw [List.mem_singleton] at h
        subst h
        rfl)).2

/-- A concrete all-LOW batch of four items, already in rank order
(descending raw probability). -/
def c5batch : List Score :=
  [⟨"d1", 30 / 100, .LOW⟩, ⟨"d2", 20 / 100, .LOW⟩,
   ⟨"d3", 10 / 100, .LOW⟩, ⟨"d4", 5 / 100, .LOW⟩]

/-- Claim C5, evaluation at the failing input: on `c5batch` the code takes the
rank fallback with one HIGH (singleton midpoint 0.85), one MED (singleton
midpoint 0.57) and a LOW tier of size two — and both LOW items receive the
LOW-tier maximum 0.39, because the `LOW` branch keeps rank position 0 for
every item instead of interpolating down to the tier minimum 0.02. -/
theorem reconciler_low_position_c5 :
    (applyOperationalBuckets c5batch).2 = .rank_fallback ∧
    (applyOperationalBuckets c5batch).1.map (fun x => x.risk_score) =
      [85 / 100, 57 / 100, 39 / 100, 39 / 100] ∧
    (applyOperationalBuckets c5batch).1.map (fun x => x.risk_bucket) =
      [.HIGH, .MED, .LOW, .LOW] := by
  have hne : c5batch ≠ [] := by simp [c5batch]
  have hlow : ∀ x ∈ c5batch, x.risk_bucket = .LOW := by
    intro x hx
    simp only [c5batch, List.mem_cons, List.mem_singleton] at hx
    rcases hx with h | h | h | h | h
    · subst h; rfl
    · subst h; rfl
    · subst h; rfl
    · subst h; rfl
    · simp at h
  have hsorted : c5batch.mergeSort scoreLE = c5batch := by
    apply List.mergeSort_of_sorted
    simp only [c5batch, List.pairwise_cons, List.mem_cons, List.mem_singleton,
      List.not_mem_nil]
    norm_num [scoreLE]
  have hhc : highCountFor c5batch.length = 1 := by
    norm_num [c5batch, highCountFor]
  have hmc : medCountFor c5batch.length 1 = 1 := by
    norm_num [c5batch, medCountFor]
  rw [applyOB_fallback c5batch hne hlow, hsorted, hhc, hmc]
  refine ⟨rfl, ?_, ?_⟩
  · show (c5batch.mapIdx fun index item => assignScore c5batch.length 1 1 index item).map
        (fun x => x.risk_score) = [85 / 100, 57 / 100, 39 / 100, 39 / 100]
    simp only [c5batch, List.mapIdx_cons, List.mapIdx_nil, List.map_cons, List.map_nil,
      assignScore_score, List.length_cons, List.length_nil]
    have eMH : RiskBucket.MED ≠ RiskBucket.HIGH := by decide
    have eLH : RiskBucket.LOW ≠ RiskBucket.HIGH := by decide
    have eLM : RiskBucket.LOW ≠ RiskBucket.MED := by decide
    norm_num [operationalScoreForBucket, round6, eMH, eLH, eLM]
  · show (c5batch.mapIdx fun index item => assignScore c5batch.length 1 1 index item).map
        (fun x => x.risk_bucket) = [.HIGH, .MED, .LOW, .LOW]
    simp only [c5batch, List.mapIdx_cons, List.mapIdx_nil, List.map_cons, List.map_nil,
      assignScore_bucket, List.length_cons, List.length_nil]
    norm_num

/-! ## Feature engine (`feature-engineering.ts`)

Telemetry readings and aggregates are exact rationals; only `Math.sqrt`
forces the standard deviation into `ℝ`, so the assembled feature vector
carries real values (casts of exact rationals). -/

/-- One `TelemetryDaily` row as read by the feature engine; `day` is the
epoch-millisecond timestamp `row.day.getTime()`, sensor readings are
nullable numbers. -/
structure TelemetryRow where
  day : ℤ
  smart5 : Option ℚ
  smart187 : Option ℚ
  smart188 : Option ℚ
  smart197 : Option ℚ
  smart198 : Option ℚ
  smart199 : Option ℚ
  temperature : Option ℚ

/-- `RAW_METRICS` (feature-engineering.ts lines 5–15). -/
def RAW_METRICS : List String :=
  ["smart_5_raw", "smart_187_raw", "smart_188_raw", "smart_197_raw",
   "smart_198_raw", "smart_199_raw", "smart_241_raw", "smart_242_raw",
   "temperature"]

/-- `METRIC_FEATURE_COLUMNS`: five derived statistics per tracked metric. -/
def METRIC_FEATURE_COLUMNS : List String :=
  RAW_METRICS.flatMap (fun metric =>
    [metric ++ "_mean_7d", metric ++ "_mean_30d", metric ++ "_std_30d",
     metric ++ "_delta_vs_7d", metric ++ "_is_increasing"])

/-- `MODEL_FEATURE_COLUMNS`. -/
def MODEL_FEATURE_COLUMNS : List String :=
  ["capacity_bytes", "age_days"] ++ METRIC_FEATURE_COLUMNS

/-- `mean`: `if (!values.length) return 0; sum / length`. -/
def mean (values : List ℚ) : ℚ :=
  if values.length = 0 then 0 else values.sum / values.length

/-- `stdDev`: population variance, 0 when fewer than 2 samples, `Math.sqrt`. -/
noncomputable def stdDev (values : List ℚ) : ℝ :=
  if values.length < 2 then 0
  else Real.sqrt (((values.map (fun value => (value - mean values) ^ 2)).sum /
    values.length : ℚ) : ℝ)

/-- `recentNumeric`: `values.slice(-window).filter(isNumber)` — the last
`window` entries, nulls removed. -/
def recentNumeric (values : List (Option ℚ)) (window : ℕ) : List ℚ :=
  (values.drop (values.length - window)).filterMap id

/-- `metricFromRow` (feature-engineering.ts lines 56–80): the switch over
metric names; `smart_241_raw`, `smart_242_raw` and unknown metrics yield
`null`. -/
def metricFromRow (row : TelemetryRow) (metric : String) : Option ℚ :=
  if metric = "smart_5_raw" then row.smart5
  else if metric = "smart_187_raw" then row.smart187
  else if metric = "smart_188_raw" then row.smart188
  else if metric = "smart_197_raw" then row.smart197
  else if metric = "smart_198_raw" then row.smart198
  else if metric = "smart_199_raw" then row.smart199
  else if metric = "temperature" then row.temperature
  else none

/-- `metricFeatureSet` (feature-engineering.ts lines 82–100). -/
noncomputable def metricFeatureSet (sortedRows : List TelemetryRow) (metric : String) :
    List (String × ℝ) :=
  let values := sortedRows.map (fun row => metricFromRow row metric)
  let values7 := recentNumeric values 7
  let values30 := recentNumeric values 30
  let current : Option ℚ := (values.getLast?).join
  let previous : Option ℚ :=
    if 1 < values.length then (values.get? (values.length - 2)).join else none
  let mean7 := mean values7
  [(metric ++ "_mean_7d", (mean7 : ℝ)),
   (metric ++ "_mean_30d", (mean values30 : ℝ)),
   (metric ++ "_std_30d", stdDev values30),
   (metric ++ "_delta_vs_7d", ((current.getD 0 - mean7 : ℚ) : ℝ)),
   (metric ++ "_is_increasing",
     match current, previous with
     | some c, some p => if p < c then (1 : ℝ) else 0
     | _, _ => 0)]

/-- `computeFeatureVector` (feature-engineering.ts lines 102–121): sort by
day ascending, device age in floored days since the first observed row
(clamped at 0), then the per-metric feature sets in declaration order. -/
noncomputable def computeFeatureVector (rows : List TelemetryRow) (day : ℤ)
    (capacityBytes : Option ℤ) : List (String × ℝ) :=
  let sortedRows := rows.mergeSort (fun a b => decide (a.day ≤ b.day))
  let firstSeen := ((sortedRows.head?).map (fun row => row.day)).getD day
  let ageDays := max 0 ((day - firstSeen).fdiv 86400000)
  [("capacity_bytes", ((capacityBytes.getD 0 : ℤ) : ℝ)),
   ("age_days", (ageDays : ℝ))] ++
    RAW_METRICS.flatMap (fun metric => metricFeatureSet sortedRows metric)

/-- A JSON field value of the cached `featureVector` column: a finite number,
or anything else (null, string, NaN, Infinity — rejected by the
`typeof value === 'number' && Number.isFinite(value)` guard). -/
inductive JsonVal where
  | num (x : ℚ)
  | other
deriving DecidableEq

/-- The fields of a `FeaturesDaily` row read by `featureVectorFromRow`. -/
structure FeaturesDailyRow where
  featureVector : List (String × JsonVal)
  ageDays : Option ℚ
  smart5Mean7d : Option ℚ
  smart197Mean7d : Option ℚ

/-- Overwrite the value stored at `key` (JS property assignment on a key
that is already present). -/
def setVal (l : List (String × ℚ)) (key : String) (value : ℚ) : List (String × ℚ) :=
  l.map (fun p => if p.1 = key then (key, value) else p)

/-- `featureVectorFromRow` (feature-engineering.ts lines 161–181): every
declared column, defaulting non-finite/absent JSON values to 0, then three
legacy backfills for keys the cached JSON lacks entirely. -/
def featureVectorFromRow (row : FeaturesDailyRow) : List (String × ℚ) :=
  let source := row.featureVector
  let base := MODEL_FEATURE_COLUMNS.map (fun column =>
    (column,
      match source.lookup column with
      | some (.num x) => x
      | _ => 0))
  let v1 :=
    if source.lookup "age_days" = none then
      match row.ageDays with
      | some a => setVal base "age_days" a
      | none => base
    else base
  let v2 :=
    if source.lookup "smart_5_raw_mean_7d" = none then
      match row.smart5Mean7d with
      | some a => setVal v1 "smart_5_raw_mean_7d" a
      | none => v1
    else v1
  if source.lookup "smart_197_raw_mean_7d" = none then
    match row.smart197Mean7d with
    | some a => setVal v2 "smart_197_raw_mean_7d" a
    | none => v2
  else v2

theorem recentNumeric_seven_of_thirty (values : List (Option ℚ))
    (h : recentNumeric values 30 = []) : recentNumeric values 7 = [] := by
  unfold recentNumeric at h ⊢
  rw [List.filterMap_eq_nil_iff] at h ⊢
  intro a ha
  apply h
  have hdd : values.drop (values.length - 7) =
      (values.drop (values.length - 30)).drop
        ((values.length - 7) - (values.length - 30)) := by
    rw [List.drop_drop]
    congr 1
    omega
  rw [hdd] at ha
  exact List.mem_of_mem_drop ha

theorem getLast_none_of_recentNumeric_nil (values : List (Option ℚ))
    (h : recentNumeric values 30 = []) : values.getLast?.join = none := by
  unfold recentNumeric at h
  rw [List.filterMap_eq_nil_iff] at h
  cases hl : values.getLast? with
  | none => rfl
  | some a =>
    have hlen : values.length ≠ 0 := by
      intro h0
      rw [List.length_eq_zero] at h0
      subst h0
      simp at hl
    have hdrop : (values.drop (values.length - 30)).getLast? = values.getLast? := by
      rw [List.getLast?_drop, if_neg]
      omega
    have hmem : a ∈ values.drop (values.length - 30) :=
      List.mem_of_mem_getLast? (hdrop.trans hl)
    have ha := h a hmem
    simp only [id] at ha
    simp [hl, ha]

/-- A metric with no valid sample in the 30-day window yields all five
statistics equal to 0. -/
theorem metricFeatureSet_no_samples (sortedRows : List TelemetryRow) (metric : String)
    (h : recentNumeric (sortedRows.map (fun row => metricFromRow row metric)) 30 = []) :
    metricFeatureSet sortedRows metric =
      [(metric ++ "_mean_7d", 0), (metric ++ "_mean_30d", 0), (metric ++ "_std_30d", 0),
       (metric ++ "_delta_vs_7d", 0), (metric ++ "_is_increasing", 0)] := by
  have h7 := recentNumeric_seven_of_thirty _ h
  have hcur := getLast_none_of_recentNumeric_nil _ h
  simp only [metricFeatureSet, h, h7, hcur]
  norm_num [mean, stdDev]

theorem metricFeatureSet_keys (sortedRows : List TelemetryRow) (metric : String) :
    (metricFeatureSet sortedRows metric).map Prod.fst =
      [metric ++ "_mean_7d", metric ++ "_mean_30d", metric ++ "_std_30d",
       metric ++ "_delta_vs_7d", metric ++ "_is_increasing"] := by
  simp [metricFeatureSet]

theorem flatMap_congr_mem {α β : Type} (l : List α) (f g : α → List β)
    (h : ∀ a ∈ l, f a = g a) : l.flatMap f = l.flatMap g := by
  induction l with
  | nil => rfl
  | cons a t ih =>
    rw [List.flatMap_cons, List.flatMap_cons, h a (by simp),
      ih (fun x hx => h x (by simp [hx]))]

theorem computeFeatureVector_keys (rows : List TelemetryRow) (day : ℤ)
    (capacityBytes : Option ℤ) :
    (computeFeatureVector rows day capacityBytes).map Prod.fst = MODEL_FEATURE_COLUMNS := by
  simp only [computeFeatureVector, MODEL_FEATURE_COLUMNS, METRIC_FEATURE_COLUMNS]
  rw [List.map_append, List.map_flatMap,
    flatMap_congr_mem _ _ _ (fun metric _ => metricFeatureSet_keys _ metric)]
  rfl

theorem setVal_keys (l : List (String × ℚ)) (key : String) (value : ℚ) :
    (setVal l key value).map Prod.fst = l.map Prod.fst := by
  unfold setVal
  rw [List.map_map]
  apply List.map_congr_left
  intro p _
  by_cases h : p.1 = key
  · simp [h]
  · simp [h]

theorem featureVectorFromRow_keys (row : FeaturesDailyRow) :
    (featureVectorFromRow row).map Prod.fst = MODEL_FEATURE_COLUMNS := by
  have hbase : (MODEL_FEATURE_COLUMNS.map (fun column =>
      (column,
        match row.featureVector.lookup column with
        | some (.num x) => x
        | _ => 0))).map Prod.fst = MODEL_FEATURE_COLUMNS := by
    rw [List.map_map]
    show MODEL_FEATURE_COLUMNS.map id = MODEL_FEATURE_COLUMNS
    exact List.map_id _
  simp only [featureVectorFromRow]
  repeat' split
  all_goals simp only [setVal_keys, hbase]

/-- Claim C7: an empty history yields age 0 and all-zero statistics; a
one-sample history yields both rolling means equal to the sample value and
standard deviation 0 for every metric present in the sample. -/
theorem featureEngine_empty_single_c7 :
    (∀ (day : ℤ) (capacityBytes : Option ℤ),
      computeFeatureVector [] day capacityBytes =
        ("capacity_bytes", ((capacityBytes.getD 0 : ℤ) : ℝ)) :: ("age_days", 0) ::
          RAW_METRICS.flatMap (fun metric =>
            [(metric ++ "_mean_7d", 0), (metric ++ "_mean_30d", 0),
             (metric ++ "_std_30d", 0), (metric ++ "_delta_vs_7d", 0),
             (metric ++ "_is_increasing", 0)])) ∧
    (∀ (row : TelemetryRow) (metric : String) (x : ℚ),
      metricFromRow row metric = some x →
      metricFeatureSet [row] metric =
        [(metric ++ "_mean_7d", (x : ℝ)), (metric ++ "_mean_30d", (x : ℝ)),
         (metric ++ "_std_30d", 0), (metric ++ "_delta_vs_7d", 0),
         (metric ++ "_is_increasing", 0)]) ∧
    (∀ (row : TelemetryRow) (day : ℤ) (capacityBytes : Option ℤ),
      computeFeatureVector [row] day capacityBytes =
        ("capacity_bytes", ((capacityBytes.getD 0 : ℤ) : ℝ)) ::
          ("age_days", ((max 0 ((day - row.day).fdiv 86400000) : ℤ) : ℝ)) ::
            RAW_METRICS.flatMap (fun metric => metricFeatureSet [row] metric)) := by
  refine ⟨?_, ?_, ?_⟩
  · intro day capacityBytes
    simp only [computeFeatureVector, List.mergeSort_nil]
    rw [flatMap_congr_mem _ _ _
      (fun metric _ => metricFeatureSet_no_samples [] metric rfl)]
    simp [Int.zero_fdiv]
  · intro row metric x hmx
    have hv7 : recentNumeric [some x] 7 = [x] := rfl
    have hv30 : recentNumeric [some x] 30 = [x] := rfl
    have hm : mean [x] = x := by norm_num [mean]
    have hs : stdDev [x] = (0 : ℝ) := rfl
    simp only [metricFeatureSet, List.map_cons, List.map_nil, hmx, hv7, hv30, hm, hs]
    norm_num
  · intro row day capacityBytes
    simp only [computeFeatureVector, List.mergeSort_singleton]
    simp

/-- Witness for C7 at the empty history and at a concrete one-sample history. -/
theorem featureEngine_empty_single_c7_witness :
    computeFeatureVector [] 0 (some 5) =
      ("capacity_bytes", ((5 : ℤ) : ℝ)) :: ("age_days", 0) ::
        RAW_METRICS.flatMap (fun metric =>
          [(metric ++ "_mean_7d", 0), (metric ++ "_mean_30d", 0),
           (metric ++ "_std_30d", 0), (metric ++ "_delta_vs_7d", 0),
           (metric ++ "_is_increasing", 0)]) ∧
    metricFeatureSet [⟨0, some 3, none, none, none, none, none, some 35⟩] "smart_5_raw" =
      [("smart_5_raw" ++ "_mean_7d", ((3 : ℚ) : ℝ)),
       ("smart_5_raw" ++ "_mean_30d", ((3 : ℚ) : ℝ)),
       ("smart_5_raw" ++ "_std_30d", 0), ("smart_5_raw" ++ "_delta_vs_7d", 0),
       ("smart_5_raw" ++ "_is_increasing", 0)] := by
  constructor
  · exact featureEngine_empty_single_c7.1 0 (some 5)
  · exact featureEngine_empty_single_c7.2.1
      ⟨0, some 3, none, none, none, none, none, some 35⟩ "smart_5_raw" 3 rfl

/-- Claim C8: the feature vector binds exactly the declared feature columns —
every declared key present, nothing omitted, nothing extra — both when computed
from telemetry and when rebuilt from a cached row, and a metric with no valid
sample in the window defaults all five of its statistics to 0. -/
theorem featureEngine_total_c8 :
    (∀ (rows : List TelemetryRow) (day : ℤ) (capacityBytes : Option ℤ),
      (computeFeatureVector rows day capacityBytes).map Prod.fst = MODEL_FEATURE_COLUMNS) ∧
    (∀ (sortedRows : List TelemetryRow) (metric : String),
      recentNumeric (sortedRows.map (fun row => metricFromRow row metric)) 30 = [] →
      metricFeatureSet sortedRows metric =
        [(metric ++ "_mean_7d", 0), (metric ++ "_mean_30d", 0), (metric ++ "_std_30d", 0),
         (metric ++ "_delta_vs_7d", 0), (metric ++ "_is_increasing", 0)]) ∧
    (∀ row : FeaturesDailyRow,
      (featureVectorFromRow row).map Prod.fst = MODEL_FEATURE_COLUMNS) :=
  ⟨computeFeatureVector_keys, metricFeatureSet_no_samples, featureVectorFromRow_keys⟩

/-- Witness for C8: the no-valid-sample hypothesis discharged at a concrete
metric that is always null, and the key list of a concrete cached row. -/
theorem featureEngine_total_c8_witness :
    metricFeatureSet [⟨0, some 3, none, none, none, none, none, some 35⟩] "smart_241_raw" =
      [("smart_241_raw" ++ "_mean_7d", 0), ("smart_241_raw" ++ "_mean_30d", 0),
       ("smart_241_raw" ++ "_std_30d", 0), ("smart_241_raw" ++ "_delta_vs_7d", 0),
       ("smart_241_raw" ++ "_is_increasing", 0)] ∧
    (featureVectorFromRow ⟨[], none, none, none⟩).map Prod.fst = MODEL_FEATURE_COLUMNS := by
  constructor
  · exact featureEngine_total_c8.2.1
      [⟨0, some 3, none, none, none, none, none, some 35⟩] "smart_241_raw" rfl
  · exact featureEngine_total_c8.2.2 ⟨[], none, none, none⟩

/-! ## Model client (`model-client.service.ts`) and seed scoring call
(`prisma/seed.ts`)

The network is modelled as oracles: `modelInfo` is the outcome of
`GET /model/info` plus schema parse (`none` = any failure), `post` the
outcome of `POST /score_batch` plus schema parse (`none` = timeout, network
error, non-2xx status or schema violation).  A thrown
`ServiceUnavailableException` is the `Except.error` case. -/

/-- Parsed `GET /model/info` response (`modelInfoSchema`). -/
structure ModelInfo where
  features : List String
  model_version : String
  horizon_days : ℤ

/-- One element of the `score_batch` request before normalization. -/
structure ScoreBatchItem where
  drive_id : String
  day : String
  features : List (String × ℚ)

/-- One element of the `score_batch` request after normalization: declared
features only, absent values as the explicit `null` sentinel. -/
structure NormItem where
  drive_id : String
  day : String
  features : List (String × Option ℚ)

/-- One reason code of a score response (`top_reasons` entries). -/
structure Reason where
  code : String
  contribution : ℝ
  direction : String

/-- A parsed `scoreResponseSchema` element / a fallback score. -/
structure RawScore where
  drive_id : String
  day : String
  risk_score : ℝ
  risk_bucket : RiskBucket
  top_reasons : List Reason
  model_version : String
  scored_at : String

/-- `ModelClientService.normalizeFeatures` (model-client.service.ts lines
100–110): one entry per declared feature name; a finite numeric value is kept,
anything else (in particular an absent key) becomes the `null` sentinel. -/
def normalizeFeatures (features : List (String × ℚ)) (expectedFeatureNames : List String) :
    List (String × Option ℚ) :=
  expectedFeatureNames.map (fun name =>
    (name,
      match features.lookup name with
      | some value => some value
      | none => none))

/-- `const normalizedItems = items.map(...)` in `scoreBatch`. -/
def normalizedItems (info : ModelInfo) (items : List ScoreBatchItem) : List NormItem :=
  items.map (fun item =>
    ⟨item.drive_id, item.day, normalizeFeatures item.features info.features⟩)

/-- `ModelClientService.scoreBatch` (model-client.service.ts lines 79–98):
fetch and parse model info, normalize every item against the declared feature
list, post once, parse; any failure raises `ServiceUnavailableException`. -/
def apiScoreBatch (modelInfo : Option ModelInfo)
    (post : List NormItem → Option (List RawScore))
    (items : List ScoreBatchItem) : Except Unit (List RawScore) :=
  match modelInfo with
  | none => .error ()
  | some info =>
    match post (normalizedItems info items) with
    | none => .error ()
    | some scores => .ok scores

/-- `clamp` (seed.ts). -/
noncomputable def clamp (value lo hi : ℝ) : ℝ := min hi (max lo value)

/-- `sigmoid` (seed.ts). -/
noncomputable def sigmoid (value : ℝ) : ℝ := 1 / (1 + Real.exp (-value))

/-- `bucketFromScore` (seed.ts): fixed thresholds 0.75 and 0.4. -/
noncomputable def bucketFromScore (score : ℝ) : RiskBucket :=
  if (75 / 100 : ℝ) ≤ score then .HIGH
  else if (40 / 100 : ℝ) ≤ score then .MED
  else .LOW

/-- `Number(x.toFixed(6))` over the reals (contributions are nonnegative in
the seed data; ties round up). -/
noncomputable def round6R (x : ℝ) : ℝ := (⌊x * 1000000 + 1 / 2⌋ : ℝ) / 1000000

/-- `features.name ?? 0`. -/
def featureVal (features : List (String × ℚ)) (name : String) : ℚ :=
  (features.lookup name).getD 0

/-- `fallbackScores` (seed.ts lines 40–77): the local deterministic heuristic
scorer — a fixed-weight linear combination squashed through the sigmoid,
clamped to [0,1], thresholded into a tier, with the top weighted contributions
rounded to six decimals.  `now` models `new Date().toISOString()`. -/
noncomputable def fallbackScores (now : String) (items : List ScoreBatchItem) :
    List RawScore :=
  items.map (fun item =>
    let features := item.features
    let linear : ℚ :=
      15 / 1000 * featureVal features "age_days" +
      9 / 100 * featureVal features "smart_5_mean_7d" +
      16 / 100 * featureVal features "smart_197_mean_7d" +
      22 / 100 * featureVal features "smart_197_max_30d" +
      11 / 100 * featureVal features "smart_198_delta_7d" +
      7 / 100 * featureVal features "write_latency_mean_7d" +
      3 / 10 * featureVal features "missing_smart_197_30d" -
      32 / 10
    let riskScore : ℝ := clamp (sigmoid (linear : ℝ)) 0 1
    { drive_id := item.drive_id
      day := item.day
      risk_score := riskScore
      risk_bucket := bucketFromScore riskScore
      top_reasons :=
        [⟨"smart_197_max_30d", round6R ((22 / 100 : ℝ) *
            (featureVal features "smart_197_max_30d" : ℚ)), "UP"⟩,
         ⟨"smart_197_mean_7d", round6R ((16 / 100 : ℝ) *
            (featureVal features "smart_197_mean_7d" : ℚ)), "UP"⟩,
         ⟨"smart_5_mean_7d", round6R ((9 / 100 : ℝ) *
            (featureVal features "smart_5_mean_7d" : ℚ)), "UP"⟩,
         ⟨"age_days", round6R ((15 / 1000 : ℝ) *
            (featureVal features "age_days" : ℚ)), "UP"⟩,
         ⟨"missing_smart_197_30d", round6R ((3 / 10 : ℝ) *
            (featureVal features "missing_smart_197_30d" : ℚ)), "UP"⟩]
      model_version := "heuristic-seed-v1"
      scored_at := now })

/-- The retry loop of `callModelScoreBatchWithRetry` (seed.ts lines 79–108)
over the remaining attempt numbers.  `post attempt` is the oracle outcome of
that attempt; the second component collects the `setTimeout` delays slept
between attempts.  An empty remainder is the unreachable trailing
`return fallbackScores(items)`. -/
noncomputable def retryFrom (post : ℕ → Option (List RawScore)) (now : String)
    (items : List ScoreBatchItem) : List ℕ → List RawScore × List ℕ
  | [] => (fallbackScores now items, [])
  | attempt :: rest =>
    match post attempt with
    | some scores => (scores, [])
    | none =>
      if rest = [] then (fallbackScores now items, [])
      else
        let next := retryFrom post now items rest
        (next.1, 1500 * attempt :: next.2)

/-- `callModelScoreBatchWithRetry` (seed.ts): attempts 1 through 8. -/
noncomputable def callModelScoreBatchWithRetry (post : ℕ → Option (List RawScore))
    (now : String) (items : List ScoreBatchItem) : List RawScore × List ℕ :=
  retryFrom post now items (List.range' 1 8)

theorem lookup_map_pair_of_mem {β : Type} (g : String → β) (l : List String)
    (name : String) (h : name ∈ l) :
    (l.map (fun n => (n, g n))).lookup name = some (g name) := by
  induction l with
  | nil => simp at h
  | cons a t ih =>
    rw [List.map_cons, List.lookup_cons]
    by_cases hna : name = a
    · subst hna
      simp
    · have hb : (name == a) = false := beq_eq_false_iff_ne.mpr hna
      rw [hb]
      exact ih (by
        rcases List.mem_cons.mp h with h1 | h1
        · exact absurd h1 hna
        · exact h1)

theorem lookup_map_pair_of_not_mem {β : Type} (g : String → β) (l : List String)
    (name : String) (h : name ∉ l) :
    (l.map (fun n => (n, g n))).lookup name = none := by
  induction l with
  | nil => rfl
  | cons a t ih =>
    rw [List.map_cons, List.lookup_cons]
    have hna : name ≠ a := fun he => h (he ▸ List.mem_cons_self a t)
    have hb : (name == a) = false := beq_eq_false_iff_ne.mpr hna
    rw [hb]
    exact ih (fun hm => h (List.mem_cons_of_mem a hm))

theorem normalizeFeatures_eq (features : List (String × ℚ)) (expected : List String) :
    normalizeFeatures features expected =
      expected.map (fun name => (name, features.lookup name)) := by
  unfold normalizeFeatures
  apply List.map_congr_left
  intro name _
  cases features.lookup name <;> rfl

theorem apiScoreBatch_some (info : ModelInfo)
    (post : List NormItem → Option (List RawScore)) (items : List ScoreBatchItem) :
    apiScoreBatch (some info) post items =
      match post (normalizedItems info items) with
      | none => .error ()
      | some scores => .ok scores := rfl

/-- Claim C9: `scoreBatch` posts exactly the items normalized against the
declared feature list of `model/info`; normalization keeps exactly the
declared keys in order, maps a declared key present in the vector to its
value, maps a declared key absent from the vector to the explicit null
sentinel (not a numeric default), and drops every key not declared. -/
theorem client_normalization_c9 :
    (∀ (info : ModelInfo) (post : List NormItem → Option (List RawScore))
        (items : List ScoreBatchItem) (scores : List RawScore),
      apiScoreBatch (some info) post items = .ok scores →
      post (normalizedItems info items) = some scores) ∧
    (∀ (features : List (String × ℚ)) (expected : List String),
      (normalizeFeatures features expected).map Prod.fst = expected ∧
      (∀ name ∈ expected,
        (normalizeFeatures features expected).lookup name =
          some (features.lookup name)) ∧
      (∀ name, name ∉ expected →
        (normalizeFeatures features expected).lookup name = none)) := by
  constructor
  · intro info post items scores h
    rw [apiScoreBatch_some] at h
    cases hp : post (normalizedItems info items) with
    | none =>
      rw [hp] at h
      simp at h
    | some s =>
      rw [hp] at h
      simp only [Except.ok.injEq] at h
      rw [h]
  · intro features expected
    refine ⟨?_, ?_, ?_⟩
    · unfold normalizeFeatures
      rw [List.map_map]
      show expected.map id = expected
      exact List.map_id expected
    · intro name hmem
      rw [normalizeFeatures_eq features expected]
      exact lookup_map_pair_of_mem (fun n => features.lookup n) expected name hmem
    · intro name hmem
      rw [normalizeFeatures_eq features expected]
      exact lookup_map_pair_of_not_mem (fun n => features.lookup n) expected name hmem

/-- Witness for C9 at a concrete vector and declared feature list. -/
theorem client_normalization_c9_witness :
    (normalizeFeatures [("a", 1), ("c", 2)] ["a", "b"]).map Prod.fst = ["a", "b"] ∧
    (normalizeFeatures [("a", 1), ("c", 2)] ["a", "b"]).lookup "a" = some (some 1) ∧
    (normalizeFeatures [("a", 1), ("c", 2)] ["a", "b"]).lookup "b" = some none ∧
    (normalizeFeatures [("a", 1), ("c", 2)] ["a", "b"]).lookup "c" = none ∧
    (fun _ : List NormItem => some ([] : List RawScore))
      (normalizedItems ⟨["a"], "v", 30⟩ []) = some [] := by
  obtain ⟨hkeys, hmem, hnot⟩ := client_normalization_c9.2 [("a", 1), ("c", 2)] ["a", "b"]
  refine ⟨hkeys, ?_, ?_, ?_, ?_⟩
  · rw [hmem "a" (by simp)]
    rfl
  · rw [hmem "b" (by simp)]
    rfl
  · exact hnot "c" (by simp)
  · exact client_normalization_c9.1 ⟨["a"], "v", 30⟩
      (fun _ => some ([] : List RawScore)) [] [] rfl

/-- Claim C1 (amended): the seed pipeline's scoring call retries up to the
ceiling of 8 attempts with linearly increasing delays `1500ms * attempt`
between attempts and, once all 8 attempts have failed, falls back to the
local heuristic scorer, producing exactly one RawScore per input item —
whereas the `ModelClientService.scoreBatch` used by the daily scoring run
performs a single attempt and surfaces failure as a
`ServiceUnavailableException`. -/
theorem retry_fallback_c1 :
    (∀ (post : ℕ → Option (List RawScore)) (now : String) (items : List ScoreBatchItem),
      (∀ attempt, 1 ≤ attempt → attempt ≤ 8 → post attempt = none) →
      callModelScoreBatchWithRetry post now items =
        (fallbackScores now items,
          [1500 * 1, 1500 * 2, 1500 * 3, 1500 * 4, 1500 * 5, 1500 * 6, 1500 * 7]) ∧
      (fallbackScores now items).length = items.length) ∧
    (∀ (post : List NormItem → Option (List RawScore)) (info : ModelInfo)
        (items : List ScoreBatchItem),
      post (normalizedItems info items) = none →
      apiScoreBatch (some info) post items = Except.error ()) := by
  constructor
  · intro post now items hfail
    have h1 : post 1 = none := hfail 1 (by norm_num) (by norm_num)
    have h2 : post 2 = none := hfail 2 (by norm_num) (by norm_num)
    have h3 : post 3 = none := hfail 3 (by norm_num) (by norm_num)
    have h4 : post 4 = none := hfail 4 (by norm_num) (by norm_num)
    have h5 : post 5 = none := hfail 5 (by norm_num) (by norm_num)
    have h6 : post 6 = none := hfail 6 (by norm_num) (by norm_num)
    have h7 : post 7 = none := hfail 7 (by norm_num) (by norm_num)
    have h8 : post 8 = none := hfail 8 (by norm_num) (by norm_num)
    have hr : List.range' 1 8 = [1, 2, 3, 4, 5, 6, 7, 8] := rfl
    constructor
    · simp only [callModelScoreBatchWithRetry, hr]
      simp [retryFrom, h1, h2, h3, h4, h5, h6, h7, h8]
    · simp [fallbackScores]
  · intro post info items hpost
    simp [apiScoreBatch, hpost]

/-- `GET /model/info` outcome for the C1 counterexample. -/
def c1info : ModelInfo := ⟨["age_days"], "m1", 30⟩

/-- A concrete scoring item for the C1 counterexample. -/
def c1item : ScoreBatchItem := ⟨"DRV-0001", "2026-02-20", [("age_days", 100)]⟩

/-- Counterexample for C1 as stated: when the remote call fails, the
`ModelClientService.scoreBatch` used by the daily scoring run raises a
`ServiceUnavailableException` instead of retrying or producing a fallback
batch — remote unavailability IS surfaced as a pipeline failure. -/
theorem retry_fallback_c1_counterexample :
    apiScoreBatch (some c1info) (fun _ => none) [c1item] = Except.error () := rfl

/-- Witness for C1 (amended): all eight attempts fail at a concrete input;
the seed call sleeps the seven linearly increasing delays and the heuristic
fallback yields one score for the single item, while the daily run's client
surfaces the failure. -/
theorem retry_fallback_c1_witness :
    (callModelScoreBatchWithRetry (fun _ => none) "2026-02-20T00:00:00Z" [c1item]).2 =
      [1500 * 1, 1500 * 2, 1500 * 3, 1500 * 4, 1500 * 5, 1500 * 6, 1500 * 7] ∧
    (fallbackScores "2026-02-20T00:00:00Z" [c1item]).length = 1 ∧
    apiScoreBatch (some c1info) (fun _ => none) [c1item] = Except.error () := by
  obtain ⟨hpair, hlen⟩ := retry_fallback_c1.1 (fun _ => none) "2026-02-20T00:00:00Z"
    [c1item] (fun _ _ _ => rfl)
  refine ⟨?_, ?_, ?_⟩
  · rw [hpair]
  · rw [hlen]
    rfl
  · exact retry_fallback_c1.2 (fun _ => none) c1info [c1item] rfl
